import Mathlib

/-!
Verification of the breakout-screener dashboard script
(pro_options_dashboard_with_breakout_screener.py).

The script is embedded shallowly: pandas/yfinance effects are made explicit
(fetch outcomes become an explicit function argument, sleeps and file writes
become recorded data, exceptions become Except values caught at the same
places the Python try/except blocks catch them), and Python floats are
modelled as exact rationals.  Machine loop constructs (while) are modelled
with an explicit fuel argument so that non-termination of the source loop is
visible as exhaustion of every fuel.
-/

/-! ## Symbol loader (load_fno_symbols, lines 29-44) -/

/-- Python re.sub removing every character outside A-Za-z0-9
(line 41 of the script). -/
def cleanSymbol (s : String) : String :=
  String.mk (s.toList.filter Char.isAlphanum)

/-- Embedding of load_fno_symbols restricted to its data path: the input is
the SYMBOL column of the CSV, with missing entries as none.  The code does
dropna, then unique (pandas keeps the first occurrence), then strips
non-alphanumerics from each raw value and keeps the non-empty results
(lines 36-44).  There is no upper-casing of symbol values in the code (only
column NAMES are upper-cased on line 32), and no deduplication after
cleaning. -/
def load_fno_symbols (col : List (Option String)) : List String :=
  (((col.filterMap id).eraseDups).map cleanSymbol).filter (fun s => s ≠ "")

/-! ## Symbol validator (validate_symbols, lines 52-100) -/

/-- Outcome of one ticker.history call in validate_symbols:
either a non-empty frame, an empty frame returned without raising,
an exception whose text contains "too many requests", or any other
exception. -/
inductive FetchResult
  | data
  | emptyFrame
  | rateLimit
  | otherErr
deriving DecidableEq, Repr

/-- Embedding of the per-symbol while loop of validate_symbols
(lines 69-89).  attempt gives the outcome of the n-th history call for this
symbol.  State carried exactly as in the code: retries, the index of the
next attempt, curr_delay, the backoff sleeps performed so far (reversed),
and the number of history calls made.  Fuel bounds the number of loop
iterations; none means the loop did not finish within the given fuel.
On a non-empty frame the code appends the symbol and breaks (lines 77-80);
on an empty frame nothing in the loop body changes retries or breaks, so
the loop repeats with identical state; on a rate-limit exception the code
sleeps curr_delay, multiplies it by 1.5 and increments retries
(lines 82-86); on any other exception it warns and breaks (lines 87-89). -/
def validateLoop (attempt : Nat → FetchResult) (maxRetries : Nat) :
    Nat → Nat → Nat → ℚ → List ℚ → Nat → Option (Bool × List ℚ × Nat)
  | 0, _, _, _, _, _ => none
  | fuel + 1, retries, idx, currDelay, sleeps, calls =>
    if retries < maxRetries then
      match attempt idx with
      | .data => some (true, sleeps.reverse, calls + 1)
      | .emptyFrame =>
          validateLoop attempt maxRetries fuel retries (idx + 1) currDelay sleeps (calls + 1)
      | .rateLimit =>
          validateLoop attempt maxRetries fuel (retries + 1) (idx + 1)
            (currDelay * (3 / 2)) (currDelay :: sleeps) (calls + 1)
      | .otherErr => some (false, sleeps.reverse, calls + 1)
    else some (false, sleeps.reverse, calls)

/-- Embedding of the fresh-validation pass over all symbols
(lines 66-91): runs the while loop for each symbol in order, collecting the
symbols whose loop appended them and the total number of history calls.
none propagates fuel exhaustion of any single loop (the script would be
stuck inside that loop, never reaching later symbols). -/
def validateFresh (fetch : String → Nat → FetchResult) (maxRetries : Nat)
    (delay : ℚ) (fuel : Nat) : List String → Option (List String × Nat)
  | [] => some ([], 0)
  | s :: rest =>
    match validateLoop (fetch s) maxRetries fuel 0 0 delay [] 0 with
    | none => none
    | some (ok, _, c) =>
      match validateFresh fetch maxRetries delay fuel rest with
      | none => none
      | some (vs, cs) => some ((if ok then s :: vs else vs), c + cs)

/-- Result of a terminating run of validate_symbols: the returned list, the
number of provider (history) calls made, and the content written to the
backup file (none when the file is not touched). -/
structure ValidateOutcome where
  result : List String
  calls : Nat
  written : Option (List String)
deriving DecidableEq, Repr

/-- Embedding of validate_symbols (lines 52-100).  backup describes the
persisted file: none when the file does not exist, some none when it exists
but fails to parse (the except branch on line 62), and some (some vals)
when it exists and parses to the given SYMBOL column values.  On a cache
hit the code returns the deduplicated column without any provider call and
without writing (lines 56-61).  Otherwise it runs the fresh pass and then
writes the result to the backup file only when the list is non-empty
(line 93: if valid_symbols). -/
def validate_symbols (symbols : List String) (fetch : String → Nat → FetchResult)
    (maxRetries : Nat) (delay : ℚ) (backup : Option (Option (List String)))
    (fuel : Nat) : Option ValidateOutcome :=
  match backup with
  | some (some cached) => some ⟨cached.eraseDups, 0, none⟩
  | _ =>
    match validateFresh fetch maxRetries delay fuel symbols with
    | none => none
    | some (vs, calls) =>
      some ⟨vs, calls, if vs.isEmpty then none else some vs⟩

/-! ## Breakout screener (get_breakout_screener, lines 102-133) -/

/-- One day of the fetched price history (the columns the code reads). -/
structure DayRow where
  high : ℚ
  low : ℚ
  close : ℚ
deriving DecidableEq, Repr

/-- Embedding of pandas Series.iloc with a negative index: iloc[-k] on a
series of the given values, raising IndexError (modelled as error) when the
series has fewer than k rows. -/
def ilocNeg (l : List ℚ) (k : Nat) : Except Unit ℚ :=
  match l.reverse.get? (k - 1) with
  | some v => .ok v
  | none => .error ()

/-- Embedding of Series.ewm(span, adjust=False).mean().iloc[-1] used on
line 114: with alpha = 2 / (span + 1), the running value starts at the
first element and each later element x updates it to
(1 - alpha) * y + alpha * x; the last running value is returned.  The
empty-series case never occurs in the script (line 109 guards it); 0 is
returned there to keep the function total. -/
def ewmAdjFalseLast (span : Nat) : List ℚ → ℚ
  | [] => 0
  | c :: cs =>
    cs.foldl
      (fun y x => (1 - 2 / (span + 1 : ℚ)) * y + (2 / (span + 1 : ℚ)) * x) c

/-- Characters stripped from both ends of the signal by the strip call on
line 128: the space and the pipe. -/
def signalStripSet : List Char := [' ', '|']

/-- Embedding of Python str.strip(" | "): remove characters of the set from
both ends of the string. -/
def pyStripPipes (s : String) : String :=
  String.mk
    (((s.toList.dropWhile (fun c => c ∈ signalStripSet)).reverse.dropWhile
        (fun c => c ∈ signalStripSet)).reverse)

/-- Embedding of the signal construction on lines 115-128: concatenate the
three labels guarded by their comparisons, then strip trailing and leading
separator characters. -/
def signalOf (current ema20 yHigh yLow : ℚ) : String :=
  pyStripPipes
    ((if current > ema20 then "Above 20EMA | " else "") ++
     (if current > yHigh then "Above Yesterday High | " else "") ++
     (if current < yLow then "Below Yesterday Low | " else ""))

/-- One row of the screener table (line 132): stock, current price, 20 EMA,
previous high, previous low, signal. -/
structure ScreenRow where
  stock : String
  current : ℚ
  ema20 : ℚ
  prevHigh : ℚ
  prevLow : ℚ
  signal : String
deriving DecidableEq, Repr

/-- Embedding of the try-block body for one symbol (lines 107-129), after
the history fetch: error is an exception escaping to the except handler on
line 130, ok none is the continue for an empty history (lines 109-110), and
ok (some row) is a computed row.  The reads happen in source order: close
iloc[-1], high iloc[-2], low iloc[-2], then the EMA and the signal. -/
def screenBody (hist : List DayRow) : Except Unit (Option (ℚ × ℚ × ℚ × ℚ × String)) :=
  if hist.isEmpty then .ok none
  else do
    let current ← ilocNeg (hist.map (fun d => d.close)) 1
    let yHigh ← ilocNeg (hist.map (fun d => d.high)) 2
    let yLow ← ilocNeg (hist.map (fun d => d.low)) 2
    let e := ewmAdjFalseLast 20 (hist.map (fun d => d.close))
    .ok (some (current, e, yHigh, yLow, signalOf current e yHigh yLow))

/-- Embedding of one iteration of the symbol loop in get_breakout_screener
(lines 105-131): fetch gives the 5-day history for the symbol; a raised
exception is caught by the except handler and turned into a warning naming
the symbol (line 131), an empty history is skipped without a warning, and a
computed row is appended to the table. -/
def screenStep (fetch : String → List DayRow)
    (acc : List ScreenRow × List String) (sym : String) :
    List ScreenRow × List String :=
  match screenBody (fetch sym) with
  | .ok none => acc
  | .ok (some (c, e, yh, yl, sig)) => (acc.1 ++ [⟨sym, c, e, yh, yl, sig⟩], acc.2)
  | .error _ => (acc.1, acc.2 ++ [sym])

/-- Embedding of the loop of get_breakout_screener over the symbol list
(lines 105-131), building the table rows and the warning list in input
order from the empty accumulators. -/
def get_breakout_screener (symbols : List String) (fetch : String → List DayRow) :
    List ScreenRow × List String :=
  symbols.foldl (screenStep fetch) ([], [])

/-! ## Top-breakouts view (lines 190-192) -/

/-- Embedding of the caller lines 190-192: keep the rows whose Signal is
non-empty, sort by Current Price descending, keep the first 10.  pandas
sort_values with ascending=False computes an ascending argsort and reverses
it (pandas nargsort); for frames this small the underlying numpy argsort is
an insertion sort, which is stable, so the descending order is the reverse
of the stable ascending order. -/
def top_breakouts (screener : List ScreenRow) : List ScreenRow :=
  (((screener.filter (fun r => r.signal ≠ "")).insertionSort
      (fun a b => a.current ≤ b.current)).reverse).take 10

/-! ## Options screener (lines 209-227) -/

/-- Python round to nearest with ties to even, on exact rationals.  The
script applies round to float values; every concrete value the claims
touch is exactly representable, so the rational model agrees there. -/
def pyRoundHalfEven (q : ℚ) : ℤ :=
  if q - ⌊q⌋ < 1 / 2 then ⌊q⌋
  else if (1 : ℚ) / 2 < q - ⌊q⌋ then ⌊q⌋ + 1
  else if ⌊q⌋ % 2 = 0 then ⌊q⌋ else ⌊q⌋ + 1

/-- Python round(x, 2): round x * 100 to an integer (ties to even) and
divide by 100. -/
def pyRound2 (q : ℚ) : ℚ := (pyRoundHalfEven (q * 100) : ℚ) / 100

/-- Decidable substring test used for the membership test
"Above" in row[Signal] on line 214. -/
def strHasSub (s pat : String) : Bool := decide (pat.toList <:+: s.toList)

/-- The strike computation of line 213: round(spot_price / 50) * 50. -/
def strikeOf (price : ℚ) : ℤ := pyRoundHalfEven (price / 50) * 50

/-- One row of the options screener table (lines 218-225). -/
structure OptionSuggestion where
  stock : String
  optionType : String
  currentPrice : ℚ
  bestStrike : ℤ
  stopLoss : ℚ
  expiry : String
deriving DecidableEq, Repr

/-- Embedding of the per-row computation of the options screener
(lines 211-225). -/
def option_screener_row (r : ScreenRow) : OptionSuggestion :=
  let optionType := if strHasSub r.signal "Above" then "CALL" else "PUT"
  { stock := r.stock
    optionType := optionType
    currentPrice := r.current
    bestStrike := strikeOf r.current
    stopLoss :=
      if optionType = "CALL" then pyRound2 (r.current * (98 / 100))
      else pyRound2 (r.current * (102 / 100))
    expiry := if r.current < 1000 then "Weekly (Intraday)" else "Monthly" }

/-- Embedding of the loop over top_breakouts rows (lines 211-225). -/
def option_screener (rows : List ScreenRow) : List OptionSuggestion :=
  rows.map option_screener_row

/-! ## Spec-side definition for the EMA refinement claim -/

/-- Recursive EMA exactly as the spec words it: the accumulator is seeded
with the first close, and each subsequent close x updates the running value
y to (1 - alpha) * y + alpha * x, with no bias adjustment.  This definition
follows the spec text and is compared with the embedding of the pandas ewm
call used by the code. -/
def emaSpecRecursive (alpha : ℚ) : ℚ → List ℚ → ℚ
  | y, [] => y
  | y, x :: xs => emaSpecRecursive alpha ((1 - alpha) * y + alpha * x) xs

/-! ## Concrete rows for the top-breakouts ordering example -/

/-- First example row: price 1200, signal "Above Yesterday High". -/
def exRowA : ScreenRow := ⟨"A", 1200, 0, 0, 0, "Above Yesterday High"⟩

/-- Second example row: price 950, signal "Below Yesterday Low". -/
def exRowB : ScreenRow := ⟨"B", 950, 0, 0, 0, "Below Yesterday Low"⟩

/-- Third example row: price 1200, signal "Above 20EMA". -/
def exRowC : ScreenRow := ⟨"C", 1200, 0, 0, 0, "Above 20EMA"⟩

/-! ## Helper lemmas -/

/-- When every history call returns an empty frame without raising, each
iteration of the validation while loop leaves retries unchanged and does
not break, so no amount of fuel finishes the loop. -/
theorem validateLoop_emptyFrame_none (maxRetries : Nat) (h : 0 < maxRetries) :
    ∀ (fuel idx calls : Nat) (d : ℚ) (sleeps : List ℚ),
      validateLoop (fun _ => FetchResult.emptyFrame) maxRetries fuel 0 idx d sleeps calls =
        none := by
  intro fuel
  induction fuel with
  | zero => intro idx calls d sleeps; rfl
  | succ n ih =>
      intro idx calls d sleeps
      simp only [validateLoop, if_pos h]
      exact ih (idx + 1) (calls + 1) d sleeps

/-! ## Claims -/

/-- C1: the claim states that validate_symbols terminates on every
candidate set and excludes a symbol whose history fetch returns an empty
result without raising on every attempt.  The code disagrees: in the empty
branch nothing increments retries and nothing breaks, so the while loop
never ends.  First conjunct: the per-symbol loop returns no result for any
fuel.  Second conjunct: the whole validate_symbols run therefore never
terminates either, and processing never reaches the next symbol. -/
theorem validate_symbols_diverges_on_persistent_empty_history :
    (∀ fuel idx calls : Nat, ∀ (d : ℚ) (sleeps : List ℚ),
        validateLoop (fun _ => FetchResult.emptyFrame) 3 fuel 0 idx d sleeps calls = none) ∧
    (∀ fuel : Nat,
        validate_symbols ["RELIANCE", "TCS"] (fun _ _ => FetchResult.emptyFrame)
          3 (3 / 4) none fuel = none) := by
  constructor
  · exact fun fuel idx calls d sleeps =>
      validateLoop_emptyFrame_none 3 (by norm_num) fuel idx calls d sleeps
  · intro fuel
    simp only [validate_symbols, validateFresh,
      validateLoop_emptyFrame_none 3 (by norm_num) fuel]

/-- C2: rate-limit errors are retried up to max_retries = 3 with
multiplicative backoff (base 0.75s, times 1.5 per retry).  Conjunct 1: a
symbol whose first two calls are rate-limited and whose third call returns
data succeeds after exactly the two backoff sleeps 0.75 and 1.125.
Conjunct 2: such a symbol appears in the final valid set of
validate_symbols.  Conjunct 3: a non-rate-limit error on the first call
ends the loop immediately with no sleep and no further call, dropping the
symbol.  Conjunct 4: a permanently rate-limited symbol is dropped after the
three backoff sleeps 0.75, 1.125, 1.6875. -/
theorem validate_symbols_retry_policy :
    validateLoop (fun i => if i < 2 then FetchResult.rateLimit else FetchResult.data)
        3 9 0 0 (3 / 4) [] 0 = some (true, [3 / 4, 9 / 8], 3) ∧
    validate_symbols ["S"]
        (fun _ i => if i < 2 then FetchResult.rateLimit else FetchResult.data)
        3 (3 / 4) none 9 = some ⟨["S"], 3, some ["S"]⟩ ∧
    (∀ (att : Nat → FetchResult) (fuel : Nat), att 0 = FetchResult.otherErr →
        validateLoop att 3 (fuel + 1) 0 0 (3 / 4) [] 0 = some (false, [], 1)) ∧
    validateLoop (fun _ => FetchResult.rateLimit) 3 9 0 0 (3 / 4) [] 0 =
      some (false, [3 / 4, 9 / 8, 27 / 16], 3) := by
  refine ⟨?_, ?_, ?_, ?_⟩
  · norm_num [validateLoop]
  · norm_num [validate_symbols, validateFresh, validateLoop]
  · intro att fuel h
    simp [validateLoop, h]
  · norm_num [validateLoop]

/-- Witness for C2: the non-retry conjunct applied to the constant
other-error attempt sequence with one unit of fuel. -/
theorem validate_symbols_retry_policy_witness :
    validateLoop (fun _ => FetchResult.otherErr) 3 1 0 0 (3 / 4) [] 0 =
      some (false, [], 1) :=
  validate_symbols_retry_policy.2.2.1 (fun _ => FetchResult.otherErr) 0 rfl

/-- C3 counterexample: the backup file exists but fails to parse, the fresh
pass drops the only symbol (non-rate-limit error), and the freshly computed
validated set — the empty list — is NOT written to the backup file: the
write on line 95 is guarded by the truthiness check on line 93, so the
prior (unparseable) content is left in place rather than overwritten. -/
theorem validate_symbols_write_counterexample :
    validate_symbols ["X"] (fun _ _ => FetchResult.otherErr) 3 (3 / 4)
        (some none) 5 = some ⟨[], 1, none⟩ ∧
    (⟨[], 1, none⟩ : ValidateOutcome).written ≠
      some (⟨[], 1, none⟩ : ValidateOutcome).result := by
  constructor
  · rfl
  · intro h
    exact Option.noConfusion h

/-- C3 amended: a parsed backup file is returned as-is with no provider
call and no write; otherwise, after a fresh validation pass, the fresh set
is written to the backup file exactly when it is non-empty (an empty fresh
result leaves the file untouched).  Conjunct 1 is the cache-hit case;
conjuncts 2 and 3 cover the file-absent and file-unparseable cases. -/
theorem validate_symbols_cache_and_write :
    (∀ (symbols : List String) (fetch : String → Nat → FetchResult)
        (mr fuel : Nat) (d : ℚ) (cached : List String),
        validate_symbols symbols fetch mr d (some (some cached)) fuel =
          some ⟨cached.eraseDups, 0, none⟩) ∧
    (∀ (symbols : List String) (fetch : String → Nat → FetchResult)
        (mr fuel : Nat) (d : ℚ) (out : ValidateOutcome),
        validate_symbols symbols fetch mr d none fuel = some out →
          out.written = if out.result.isEmpty then none else some out.result) ∧
    (∀ (symbols : List String) (fetch : String → Nat → FetchResult)
        (mr fuel : Nat) (d : ℚ) (out : ValidateOutcome),
        validate_symbols symbols fetch mr d (some none) fuel = some out →
          out.written = if out.result.isEmpty then none else some out.result) := by
  refine ⟨fun _ _ _ _ _ _ => rfl, ?_, ?_⟩ <;>
  · intro symbols fetch mr fuel d out h
    simp only [validate_symbols] at h
    cases hf : validateFresh fetch mr d fuel symbols with
    | none => rw [hf] at h; exact Option.noConfusion h
    | some p =>
        rw [hf] at h
        cases h
        rfl

/-- Witness for C3: the write-iff-non-empty conjunct applied to a one
symbol run whose only call returns data, so the result list ["S"] is
non-empty and is written. -/
theorem validate_symbols_cache_and_write_witness :
    (⟨["S"], 1, some ["S"]⟩ : ValidateOutcome).written =
      if (⟨["S"], 1, some ["S"]⟩ : ValidateOutcome).result.isEmpty then none
      else some (⟨["S"], 1, some ["S"]⟩ : ValidateOutcome).result :=
  validate_symbols_cache_and_write.2.1 ["S"] (fun _ _ => FetchResult.data)
    3 1 (3 / 4) ⟨["S"], 1, some ["S"]⟩ rfl

/-- C4 counterexample: the column with raw values "ab-c" and "abc" yields
["abc", "abc"].  The returned symbols are not upper-cased (the code only
upper-cases column names, never the values), and the same normalized
symbol appears twice because deduplication runs on the raw values before
normalization. -/
theorem load_fno_symbols_counterexample :
    load_fno_symbols [some "ab-c", some "abc"] = ["abc", "abc"] ∧
    ¬ (load_fno_symbols [some "ab-c", some "abc"]).Nodup ∧
    "abc" ∈ load_fno_symbols [some "ab-c", some "abc"] ∧
    "abc".toList.map Char.toUpper ≠ "abc".toList := by
  refine ⟨rfl, ?_, ?_, ?_⟩ <;> decide

/-- C4 amended: every symbol returned by load_fno_symbols consists only of
alphanumeric characters and is non-empty; letter case is preserved (no
upper-casing) and deduplication applies to the raw column values before
normalization, so distinct raw values that normalize alike may each
appear. -/
theorem load_fno_symbols_normalized (col : List (Option String)) (s : String)
    (h : s ∈ load_fno_symbols col) :
    s ≠ "" ∧ s.toList.all Char.isAlphanum = true := by
  simp only [load_fno_symbols, List.mem_filter, List.mem_map] at h
  obtain ⟨⟨raw, _, hclean⟩, hne⟩ := h
  constructor
  · exact fun he => by simp [he] at hne
  · subst hclean
    simp only [cleanSymbol]
    exact List.all_eq_true.mpr fun c hc => (List.mem_filter.mp hc).2

/-- Witness for C4: the amended normalization facts at the concrete column
containing the single raw value "A1". -/
theorem load_fno_symbols_normalized_witness :
    "A1" ≠ "" ∧ "A1".toList.all Char.isAlphanum = true :=
  load_fno_symbols_normalized [some "A1"] "A1" (by decide)

/-- C5 counterexample: for the rows with prices [1200, 950, 1200] and
signals ["Above Yesterday High", "Below Yesterday Low", "Above 20EMA"],
the top-breakouts view is [third row, first row, second row]: the two
1200-price rows do come before the 950 row, but NOT in their original
relative order.  pandas sort_values(ascending=False) computes an ascending
argsort (stable at this input size) and reverses it, so equal-price rows
come out reversed; the claimed stable tie-break fails. -/
theorem top_breakouts_tie_counterexample :
    top_breakouts [exRowA, exRowB, exRowC] = [exRowC, exRowA, exRowB] ∧
    top_breakouts [exRowA, exRowB, exRowC] ≠ [exRowA, exRowC, exRowB] := by
  constructor
  · rfl
  · decide

/-- C5 amended: the top-breakouts view contains only rows with a non-empty
signal, is sorted by current price descending, holds at most 10 rows, and
orders equal-price rows in REVERSE of their original order (the descending
sort is the reversal of a stable ascending sort); on the example rows the
result is [third, first, second], so both 1200-price rows precede the 950
row but their mutual order is flipped. -/
theorem top_breakouts_spec :
    top_breakouts [exRowA, exRowB, exRowC] = [exRowC, exRowA, exRowB] ∧
    (∀ rows : List ScreenRow, (top_breakouts rows).length ≤ 10) ∧
    (∀ rows : List ScreenRow,
        (top_breakouts rows).Sorted (fun a b => b.current ≤ a.current)) ∧
    (∀ (rows : List ScreenRow) (r : ScreenRow),
        r ∈ top_breakouts rows → r.signal ≠ "") := by
  refine ⟨rfl, ?_, ?_, ?_⟩
  · intro rows
    exact List.length_take_le 10 _
  · intro rows
    haveI : IsTotal ScreenRow (fun a b => a.current ≤ b.current) :=
      ⟨fun a b => le_total a.current b.current⟩
    haveI : IsTrans ScreenRow (fun a b => a.current ≤ b.current) :=
      ⟨fun _ _ _ hab hbc => le_trans hab hbc⟩
    have hs :=
      List.sorted_insertionSort (fun a b : ScreenRow => a.current ≤ b.current)
        (List.filter (fun r => r.signal ≠ "") rows)
    have hrev : (List.insertionSort (fun a b : ScreenRow => a.current ≤ b.current)
        (List.filter (fun r => r.signal ≠ "") rows)).reverse.Pairwise
          (fun a b => b.current ≤ a.current) :=
      List.pairwise_reverse.mpr hs
    exact List.Pairwise.sublist (List.take_sublist 10 _) hrev
  · intro rows r hr
    have h1 : r ∈ (List.insertionSort (fun a b : ScreenRow => a.current ≤ b.current)
        (List.filter (fun r => r.signal ≠ "") rows)).reverse :=
      (List.take_sublist 10 _).subset hr
    rw [List.mem_reverse] at h1
    have h2 : r ∈ List.filter (fun r => r.signal ≠ "") rows :=
      (List.perm_insertionSort (fun a b : ScreenRow => a.current ≤ b.current) _).subset h1
    have := (List.mem_filter.mp h2).2
    exact of_decide_eq_true this

/-- Witness for C5: the non-empty-signal conjunct applied to the row exRowC
as a member of the top-breakouts view of the example rows. -/
theorem top_breakouts_spec_witness : exRowC.signal ≠ "" :=
  top_breakouts_spec.2.2.2 [exRowA, exRowB, exRowC] exRowC (by decide)

/-- C6: the options screener computes strike = round(price / 50) * 50 with
the Python rounding rule (ties to even), direction CALL exactly when the
signal contains "Above" and PUT otherwise, stop-loss price * 0.98 for CALL
and price * 1.02 for PUT rounded to two decimals, and expiry
"Weekly (Intraday)" for price < 1000 and "Monthly" otherwise.  The first
conjunct states the formulas for every row; the last two check the claimed
instances: price 975 with an "Above" signal gives strike 1000, CALL,
stop-loss 955.50, weekly expiry; price 1500 with no "Above" gives PUT and
monthly expiry. -/
theorem option_screener_row_formulas :
    (∀ r : ScreenRow, option_screener_row r =
      { stock := r.stock
        optionType := if strHasSub r.signal "Above" then "CALL" else "PUT"
        currentPrice := r.current
        bestStrike := strikeOf r.current
        stopLoss :=
          if strHasSub r.signal "Above" then pyRound2 (r.current * (98 / 100))
          else pyRound2 (r.current * (102 / 100))
        expiry := if r.current < 1000 then "Weekly (Intraday)" else "Monthly" }) ∧
    option_screener_row ⟨"X", 975, 0, 0, 0, "Above Yesterday High"⟩ =
      ⟨"X", "CALL", 975, 1000, 955.5, "Weekly (Intraday)"⟩ ∧
    option_screener_row ⟨"Y", 1500, 0, 0, 0, "Below Yesterday Low"⟩ =
      ⟨"Y", "PUT", 1500, 1500, 1530, "Monthly"⟩ := by
  refine ⟨?_, ?_, ?_⟩
  · intro r
    simp only [option_screener_row]
    cases h : strHasSub r.signal "Above" <;> simp [h]
  · have habove : strHasSub "Above Yesterday High" "Above" = true := by decide
    simp only [option_screener_row, habove, if_true]
    norm_num [strikeOf, pyRoundHalfEven, pyRound2]
  · have habove : strHasSub "Below Yesterday Low" "Above" = false := by decide
    have hne : ("PUT" : String) ≠ "CALL" := by decide
    simp only [option_screener_row, habove]
    norm_num [strikeOf, pyRoundHalfEven, pyRound2, hne]

/-- Helper for C7: the pandas ewm fold agrees step by step with the
recursive EMA of the spec for every alpha-defining span. -/
theorem ewmAdjFalseLast_eq_emaSpecRecursive (c : ℚ) (cs : List ℚ) :
    ewmAdjFalseLast 20 (c :: cs) = emaSpecRecursive (2 / 21) c cs := by
  have hw : ((20 : Nat) + 1 : ℚ) = 21 := by norm_num
  induction cs generalizing c with
  | nil => rfl
  | cons x xs ih =>
      show List.foldl _ _ (x :: xs) = _
      rw [List.foldl_cons]
      have : (1 - 2 / ((20 : Nat) + 1 : ℚ)) * c + 2 / ((20 : Nat) + 1 : ℚ) * x =
          (1 - 2 / 21) * c + 2 / 21 * x := by rw [hw]
      calc List.foldl _ ((1 - 2 / ((20 : Nat) + 1 : ℚ)) * c +
              2 / ((20 : Nat) + 1 : ℚ) * x) xs
          = ewmAdjFalseLast 20 (((1 - 2 / ((20 : Nat) + 1 : ℚ)) * c +
              2 / ((20 : Nat) + 1 : ℚ) * x) :: xs) := rfl
        _ = emaSpecRecursive (2 / 21) ((1 - 2 / ((20 : Nat) + 1 : ℚ)) * c +
              2 / ((20 : Nat) + 1 : ℚ) * x) xs := ih _
        _ = emaSpecRecursive (2 / 21) ((1 - 2 / 21) * c + 2 / 21 * x) xs := by rw [this]
        _ = emaSpecRecursive (2 / 21) c (x :: xs) := rfl

/-- C7: the ema20 of the screener (the embedding of the pandas call
ewm(span=20, adjust=False).mean().iloc[-1]) equals the recursive EMA of
the spec with seed = first close and weight 2/21 and no bias adjustment;
in particular a single-element series gives back its only element. -/
theorem ema20_matches_recursive_spec :
    (∀ c : ℚ, ewmAdjFalseLast 20 [c] = c) ∧
    (∀ (c : ℚ) (cs : List ℚ),
        ewmAdjFalseLast 20 (c :: cs) = emaSpecRecursive (2 / 21) c cs) := by
  exact ⟨fun _ => rfl, ewmAdjFalseLast_eq_emaSpecRecursive⟩

/-- C8: the signal is built from the three independent checks, and when
the latest close exceeds both the EMA and the prior high the signal
contains both labels "Above 20EMA" and "Above Yesterday High". -/
theorem signal_contains_both_labels (current e yh yl : ℚ)
    (h1 : current > e) (h2 : current > yh) :
    strHasSub (signalOf current e yh yl) "Above 20EMA" = true ∧
    strHasSub (signalOf current e yh yl) "Above Yesterday High" = true := by
  unfold signalOf
  rw [if_pos h1, if_pos h2]
  by_cases h3 : current < yl
  · rw [if_pos h3]
    exact ⟨by decide, by decide⟩
  · rw [if_neg h3]
    exact ⟨by decide, by decide⟩

/-- Witness for C8: the two labels are present for close 100, EMA 50,
prior high 90, prior low 10. -/
theorem signal_contains_both_labels_witness :
    strHasSub (signalOf 100 50 90 10) "Above 20EMA" = true ∧
    strHasSub (signalOf 100 50 90 10) "Above Yesterday High" = true :=
  signal_contains_both_labels 100 50 90 10 (by norm_num) (by norm_num)

/-- Helper for C9: a history with fewer than two rows never yields a
computed row: the empty history takes the continue branch, and a
single-row history raises inside the try block (iloc[-2] on line 112) and
is caught by the handler. -/
theorem screenBody_short (hist : List DayRow) (h : hist.length < 2) :
    ∀ out, screenBody hist ≠ .ok (some out) := by
  match hist with
  | [] => intro out; simp [screenBody]
  | [d] =>
      intro out
      simp [screenBody, ilocNeg, Bind.bind, Except.bind]
  | d :: e :: t => simp at h; omega

/-- Helper for C9: the screener fold never adds a row for a symbol whose
fetched history is shorter than two rows. -/
theorem screenStep_foldl_not_mem (fetch : String → List DayRow) (s : String)
    (hshort : (fetch s).length < 2) :
    ∀ (syms : List String) (acc : List ScreenRow × List String),
      s ∉ acc.1.map (fun r => r.stock) →
      s ∉ (syms.foldl (screenStep fetch) acc).1.map (fun r => r.stock) := by
  intro syms
  induction syms with
  | nil => intro acc h; exact h
  | cons t ts ih =>
      intro acc hacc
      rw [List.foldl_cons]
      apply ih
      unfold screenStep
      cases hb : screenBody (fetch t) with
      | error u => exact hacc
      | ok o =>
          cases o with
          | none => exact hacc
          | some out =>
              obtain ⟨c, e, yh, yl, sig⟩ := out
              simp only [List.map_append, List.map_cons, List.map_nil]
              intro hmem
              rcases List.mem_append.mp hmem with hl | hr
              · exact hacc hl
              · have hst : s = t := by simpa using hr
                subst hst
                exact screenBody_short (fetch s) hshort (c, e, yh, yl, sig) hb

/-- C9: a symbol whose fetched history has fewer than two rows is excluded
from the screener output table; the failure is handled inside
get_breakout_screener (the single-row case raises IndexError, which the
except handler catches), so the screener still returns its table and no
exception escapes. -/
theorem screener_excludes_short_histories (symbols : List String)
    (fetch : String → List DayRow) (s : String) (_hmem : s ∈ symbols)
    (hshort : (fetch s).length < 2) :
    s ∉ (get_breakout_screener symbols fetch).1.map (fun r => r.stock) := by
  unfold get_breakout_screener
  exact screenStep_foldl_not_mem fetch s hshort symbols ([], []) (by simp)

/-- Witness for C9: a single-symbol run whose history has one row; the
symbol is absent from the output table. -/
theorem screener_excludes_short_histories_witness :
    "A" ∉ (get_breakout_screener ["A"] (fun _ => [⟨2, 1, 3⟩])).1.map
        (fun r => r.stock) :=
  screener_excludes_short_histories ["A"] (fun _ => [⟨2, 1, 3⟩]) "A"
    (by decide) (by decide)

/-- Helper for C10: Python round at an exact half picks the even
neighbour. -/
theorem pyRoundHalfEven_int_add_half (k : ℤ) :
    pyRoundHalfEven ((k : ℚ) + 1 / 2) = if k % 2 = 0 then k else k + 1 := by
  have hfl : ⌊(k : ℚ) + 1 / 2⌋ = k := by
    rw [Int.floor_int_add]
    norm_num
  unfold pyRoundHalfEven
  rw [hfl]
  have hfrac : (k : ℚ) + 1 / 2 - (k : ℤ) = 1 / 2 := by ring
  rw [hfrac]
  norm_num

/-- C10: strike rounding is round-half-to-even.  For a price that is an
odd multiple of 25 the quotient price / 50 sits exactly on a half, and the
code rounds it to the even neighbour, so the strike is the multiple of 100
(an even multiple of 50) nearest the price: it lies at distance 25 while
every multiple of 100 lies at distance at least 25.  In particular price
1025 gives strike 1000 (not 1050) and price 975 gives strike 1000. -/
theorem strike_rounds_half_to_even :
    (∀ k : ℤ,
        strikeOf ((25 * (2 * k + 1) : ℤ) : ℚ) =
          (if k % 2 = 0 then 50 * k else 50 * (k + 1)) ∧
        (100 : ℤ) ∣ strikeOf ((25 * (2 * k + 1) : ℤ) : ℚ) ∧
        |25 * (2 * k + 1) - strikeOf ((25 * (2 * k + 1) : ℤ) : ℚ)| = 25) ∧
    (∀ k m : ℤ, 100 ∣ m → 25 ≤ |25 * (2 * k + 1) - m|) ∧
    strikeOf 1025 = 1000 ∧ strikeOf 975 = 1000 := by
  refine ⟨?_, ?_, ?_, ?_⟩
  · intro k
    have hq : ((25 * (2 * k + 1) : ℤ) : ℚ) / 50 = (k : ℚ) + 1 / 2 := by
      push_cast
      ring
    have hst : strikeOf ((25 * (2 * k + 1) : ℤ) : ℚ) =
        (if k % 2 = 0 then k else k + 1) * 50 := by
      rw [strikeOf, hq, pyRoundHalfEven_int_add_half]
    refine ⟨?_, ?_, ?_⟩
    · rw [hst]
      by_cases h : k % 2 = 0
      · rw [if_pos h, if_pos h]; ring
      · rw [if_neg h, if_neg h]; ring
    · rw [hst]
      by_cases h : k % 2 = 0
      · rw [if_pos h]; omega
      · rw [if_neg h]; omega
    · rw [hst]
      by_cases h : k % 2 = 0
      · rw [if_pos h]
        have he : 25 * (2 * k + 1) - k * 50 = 25 := by ring
        rw [he]
        norm_num
      · rw [if_neg h]
        have he : 25 * (2 * k + 1) - (k + 1) * 50 = -25 := by ring
        rw [he]
        norm_num
  · intro k m hm
    obtain ⟨t, rfl⟩ := hm
    rcases abs_cases (25 * (2 * k + 1) - 100 * t) with ⟨h1, h2⟩ | ⟨h1, h2⟩ <;>
      rw [h1] <;> omega
  · norm_num [strikeOf, pyRoundHalfEven]
  · norm_num [strikeOf, pyRoundHalfEven]

/-- Witness for C10: the minimal-distance conjunct applied at k = 20
(price 1025) and the multiple-of-100 value 1100, whose distance is 75. -/
theorem strike_rounds_half_to_even_witness :
    25 ≤ |25 * (2 * (20 : ℤ) + 1) - 1100| :=
  strike_rounds_half_to_even.2.1 20 1100 (by norm_num)
